import Mathlib

/-!
Verification of the e-scraper repository (src/escrape.py, src/main33_efnt4.py,
src/main_uat1.py) against its natural-language specification.

The embedding models Python strings as `List Char` and translates the pure
helper functions of `src/escrape.py` directly.  Browser effects (navigation,
rendering, element queries) are modelled by oracles: a navigation either
raises (`NavResult.err`, covering Playwright timeouts and navigation errors)
or yields a loaded page whose rendered text contains a first email-pattern
match (`NavResult.ok (some e)`) or none (`NavResult.ok none`).  Exception
propagation in Python is modelled with `Except`; a caught exception is folded
into the normal return value exactly where the source catches it.
-/

namespace EScrape

/-- Python strings are modelled as lists of characters. -/
abbrev Str := List Char

/-! ### Generic list lemmas used throughout -/

theorem takeWhile_all {α} (p : α → Bool) :
    ∀ (a : List α), (∀ c ∈ a, p c = true) → a.takeWhile p = a
  | [], _ => rfl
  | x :: a, h => by
    have hx : p x = true := h x (List.mem_cons_self x a)
    simp only [List.takeWhile_cons, hx, if_true]
    exact congrArg (x :: ·) (takeWhile_all p a fun c hc => h c (List.mem_cons_of_mem _ hc))

theorem takeWhile_append_all {α} (p : α → Bool) :
    ∀ (a b : List α), (∀ c ∈ a, p c = true) →
      (a ++ b).takeWhile p = a ++ b.takeWhile p
  | [], _, _ => rfl
  | x :: a, b, h => by
    have hx : p x = true := h x (List.mem_cons_self x a)
    simp only [List.cons_append, List.takeWhile_cons, hx, if_true]
    exact congrArg (x :: ·)
      (takeWhile_append_all p a b fun c hc => h c (List.mem_cons_of_mem _ hc))

theorem takeWhile_middle {α} (p : α → Bool) (a : List α) (x : α) (b : List α)
    (h : ∀ c ∈ a, p c = true) (hx : p x = false) :
    (a ++ x :: b).takeWhile p = a := by
  rw [takeWhile_append_all p a (x :: b) h]
  simp [List.takeWhile_cons, hx]

theorem dropWhile_append_all {α} (p : α → Bool) :
    ∀ (a b : List α), (∀ c ∈ a, p c = true) →
      (a ++ b).dropWhile p = b.dropWhile p
  | [], _, _ => rfl
  | x :: a, b, h => by
    have hx : p x = true := h x (List.mem_cons_self x a)
    simp only [List.cons_append, List.dropWhile_cons, hx, if_true]
    exact dropWhile_append_all p a b fun c hc => h c (List.mem_cons_of_mem _ hc)

theorem dropWhile_middle {α} (p : α → Bool) (a : List α) (x : α) (b : List α)
    (h : ∀ c ∈ a, p c = true) (hx : p x = false) :
    (a ++ x :: b).dropWhile p = x :: b := by
  rw [dropWhile_append_all p a (x :: b) h]
  simp [List.dropWhile_cons, hx]

/-! ### Numeric parsing

`src/escrape.py` applies Python's builtin `float` to the comma-fields of the
coordinate segment.  The parsed value is modelled exactly as a scaled decimal
`num * 10 ^ exp` (IEEE-754 rounding is abstracted away; the claims are about
which text is parsed, not about binary rounding).  The model covers finite
decimal and scientific literals with optional surrounding whitespace and
sign; the special literals `inf`/`nan` and digit-group underscores accepted
by Python are outside the model (they never occur in map URLs). -/

/-- Exact decimal value `num * 10 ^ exp`, the result of parsing a numeric
literal. -/
structure DecNum where
  num : Int
  exp : Int
deriving DecidableEq

/-- The rational value denoted by a `DecNum`. -/
def DecNum.toRat (d : DecNum) : ℚ :=
  if 0 ≤ d.exp then (d.num : ℚ) * (10 : ℚ) ^ d.exp.toNat
  else (d.num : ℚ) / (10 : ℚ) ^ (-d.exp).toNat

/-- Whitespace stripped by Python `float` (`str.strip` default set,
restricted to the ASCII members). -/
def isWs (c : Char) : Bool :=
  c = ' ' || c = '\t' || c = '\n' || c = '\r'

/-- Decimal digits of a numeral, most significant first. -/
def digitsToNat (l : Str) : Nat :=
  l.foldl (fun n c => 10 * n + (c.toNat - 48)) 0

/-- Model of Python `float(s)` on finite literals: optional surrounding
whitespace, optional sign, a mantissa `digits`, `digits.digits`, `digits.`
or `.digits`, and an optional exponent `e`/`E` with optional sign and at
least one digit.  Any other input raises `ValueError`, modelled as `none`. -/
def pyFloat (s : Str) : Option DecNum :=
  let t := ((s.dropWhile isWs).reverse.dropWhile isWs).reverse
  let sgnT : Int × Str :=
    match t with
    | '+' :: r => (1, r)
    | '-' :: r => (-1, r)
    | _ => (1, t)
  let ip := sgnT.2.takeWhile Char.isDigit
  let t2 := sgnT.2.dropWhile Char.isDigit
  let fpT : Str × Str :=
    match t2 with
    | '.' :: r => (r.takeWhile Char.isDigit, r.dropWhile Char.isDigit)
    | _ => ([], t2)
  if ip.isEmpty && fpT.1.isEmpty then none
  else
    let mant : Int := sgnT.1 * ((digitsToNat (ip ++ fpT.1) : Nat) : Int)
    let scale : Int := -(fpT.1.length : Int)
    match fpT.2 with
    | [] => some ⟨mant, scale⟩
    | e :: r =>
      if e = 'e' || e = 'E' then
        let esT : Int × Str :=
          match r with
          | '+' :: r2 => (1, r2)
          | '-' :: r2 => (-1, r2)
          | _ => (1, r)
        if !esT.2.isEmpty && esT.2.all Char.isDigit then
          some ⟨mant, scale + esT.1 * ((digitsToNat esT.2 : Nat) : Int)⟩
        else none
      else none

/-! ### Coordinate extraction (`extract_coordinates_from_url`, escrape.py 46-48)

```python
def extract_coordinates_from_url(url: str) -> tuple[float, float]:
    coordinates = url.split('/@')[-1].split('/')[0]
    return float(coordinates.split(',')[0]), float(coordinates.split(',')[1])
```

`url.split('/@')[-1]` is the suffix after the last occurrence of the
two-character separator (the whole string when the separator is absent;
occurrences cannot overlap because the two characters differ).
`.split('/')[0]` is the text before the first slash, `split(',')[0]` and
`[1]` the first two comma-fields.  A missing second comma-field raises
`IndexError` and a non-numeric field raises `ValueError`; both are modelled
as `none`. -/

/-- `true` iff the two-character separator `/@` occurs in the list. -/
def hasSlashAt : Str → Bool
  | a :: b :: rest => (a = '/' && b = '@') || hasSlashAt (b :: rest)
  | _ => false

/-- The suffix after the last occurrence of `/@`, or `none` if it does not
occur — `url.split('/@')[-1]` returns this suffix (or the whole string). -/
def afterLastSlashAt : Str → Option Str
  | a :: b :: rest =>
    match afterLastSlashAt (b :: rest) with
    | some s => some s
    | none => if a = '/' && b = '@' then some rest else none
  | _ => none

/-- `float(seg.split(',')[0]), float(seg.split(',')[1])` applied to the text
before the first `/` of the segment (Python `split(',')[0]` is the text
before the first comma; `split(',')[1]`, the text between the first and the
second comma, exists iff some comma occurs, else `IndexError`). -/
def coordPairOf (seg0 : Str) : Option (DecNum × DecNum) :=
  let coords := seg0.takeWhile (fun c => !(c = '/'))
  let rest1 := coords.dropWhile (fun c => !(c = ','))
  if rest1.isEmpty then none
  else
    match pyFloat (coords.takeWhile (fun c => !(c = ','))),
          pyFloat (rest1.tail.takeWhile (fun c => !(c = ','))) with
    | some la, some lo => some (la, lo)
    | _, _ => none

/-- `extract_coordinates_from_url`; `none` models a raised
`ValueError`/`IndexError`. -/
def extract_coordinates_from_url (url : Str) : Option (DecNum × DecNum) :=
  coordPairOf ((afterLastSlashAt url).getD url)

/-! ### URL validation (`is_valid_url`, escrape.py 137-140)

```python
url_pattern = r"^(http:\/\/www\.|https:\/\/www\.|http:\/\/|https:\/\/)?[a-zA-Z0-9-]+\.[a-zA-Z]\x7b2,\x7d"
return re.match(url_pattern, url) is not None
```

`re.match` anchors at the start of the string only; there is no `$`, so any
trailing characters are accepted.  The host class `[a-zA-Z0-9-]` excludes
`.`, hence the host run is the maximal run of host characters and the match
succeeds iff it is non-empty, is followed by a literal `.`, and at least two
ASCII letters follow that dot.  The optional leading group tries each
alternative and the empty string; the overall boolean is the existence of a
successful alternative. -/

/-- `[a-zA-Z0-9-]` of the validation regex. -/
def hostChar (c : Char) : Bool :=
  c.isAlpha || c.isDigit || c = '-'

/-- The four explicit alternatives of the regex's optional leading group. -/
def urlSchemes : List Str :=
  ["http://www.".toList, "https://www.".toList, "http://".toList, "https://".toList]

/-- Matches `[a-zA-Z0-9-]+\.[a-zA-Z]\x7b2,\x7d` at the start of `t` (trailing
characters unconstrained): since the host class excludes `.`, the host run
is the maximal `hostChar` run; then a literal `.` and at least two letters
must follow. -/
def hostTldCheck (t : Str) : Bool :=
  !(t.takeWhile hostChar).isEmpty &&
    (t.dropWhile hostChar).head? = some '.' &&
    2 ≤ ((t.dropWhile hostChar).tail.takeWhile Char.isAlpha).length

/-- `is_valid_url` (escrape.py 137-140, identical in main33_efnt4.py). -/
def is_valid_url (url : Str) : Bool :=
  (urlSchemes ++ [[]]).any fun pre => pre.isPrefixOf url && hostTldCheck (url.drop pre.length)

/-- Modelled from the spec's words for C8, read as the whole string being of
the shape `[optional scheme][optional www.]host.tld` with a TLD of at least
two letters: nothing may follow the TLD, and the `www.` part is an
independent option.  Used to compare the spec's shape with the regex. -/
def endsAsHostTld (t : Str) : Bool :=
  !(t.takeWhile hostChar).isEmpty &&
    (t.dropWhile hostChar).head? = some '.' &&
    2 ≤ (t.dropWhile hostChar).tail.length &&
    (t.dropWhile hostChar).tail.all Char.isAlpha

/-- Modelled from the spec (C8): whole-string shape match with free
optional scheme and free optional `www.`. -/
def matchesSpecShape (s : Str) : Bool :=
  ([[], "http://".toList, "https://".toList] : List Str).any fun sc =>
    sc.isPrefixOf s &&
      (([[], "www.".toList] : List Str).any fun w =>
        w.isPrefixOf (s.drop sc.length) &&
          endsAsHostTld ((s.drop sc.length).drop w.length))

/-- The shape `is_valid_url` actually decides: anchored at the start only,
with the `www.` option tied to an explicit scheme, and arbitrary trailing
characters after the two TLD letters. -/
def urlShapeAtStart (s : Str) : Prop :=
  ∃ sch host tld rest,
    (sch ∈ urlSchemes ∨ sch = []) ∧
    s = sch ++ host ++ '.' :: (tld ++ rest) ∧
    host ≠ [] ∧ (∀ c ∈ host, hostChar c = true) ∧
    2 ≤ tld.length ∧ (∀ c ∈ tld, Char.isAlpha c = true)

/-! ### Browser oracle

A navigation-plus-extraction step either raises (timeout / navigation error /
extraction error) or yields the result of
`extract_email_from_rendered_text` on the loaded page: the first
email-pattern match of the rendered text, or `None`. -/

/-- Outcome of navigating to a URL and scanning the rendered text. -/
inductive NavResult where
  | err : NavResult
  | ok : Option Str → NavResult
deriving DecidableEq

/-- The two navigation oracles of one scraping session: `nav` for the
site-identity (un-proxied) context used on business websites, `searchNav`
for the proxied search-engine page (keyed by the website URL the
`site:{url} email` query is built from). -/
structure World where
  nav : Str → NavResult
  searchNav : Str → NavResult

/-- `true` iff navigating to `u` loads a page whose rendered text yields an
email. -/
def isHit (w : World) (u : Str) : Bool :=
  match w.nav u with
  | NavResult.ok (some _) => true
  | _ => false

/-- Python `website_url.rstrip('/')`: remove every trailing slash. -/
def rstripSlash (s : Str) : Str :=
  (s.reverse.dropWhile (fun c => c = '/')).reverse

/-- The fixed ordered contact-path list of `search_email_on_website`
(escrape.py 97). -/
def commonContactPaths : List Str :=
  ["/about".toList, "/contact".toList, "/about-us".toList, "/contact-us".toList,
   "/support".toList, "/help".toList, "/get-in-touch".toList]

/-- The contact-path URLs attempted during the sweep, in order. -/
def contactUrls (base : Str) : List Str :=
  commonContactPaths.map fun p => rstripSlash base ++ p

/-! ### Search-engine fallback (`perform_site_specific_google_search`,
escrape.py 57-90)

The function first rejects URLs lacking an `http://`/`https://` prefix
(returning `None` before any query); otherwise it issues the query and
waits for the results container; a timeout or any other exception is caught
and turned into `None`; otherwise the extractor's result is returned.  The
function therefore never raises. -/

/-- Result of one fallback invocation. `invalidUrl` records whether the
early-return branch for a scheme-less URL was taken. -/
structure SearchAttempt where
  invalidUrl : Bool
  email : Option Str
deriving DecidableEq

/-- `perform_site_specific_google_search` (escrape.py 57-90). -/
def perform_site_specific_google_search (w : World) (url : Str) : SearchAttempt :=
  if !("http://".toList.isPrefixOf url || "https://".toList.isPrefixOf url) then
    { invalidUrl := true, email := none }
  else
    match w.searchNav url with
    | NavResult.err => { invalidUrl := false, email := none }
    | NavResult.ok e => { invalidUrl := false, email := e }

/-! ### Email Discovery Engine (`search_email_on_website`, escrape.py 94-135)

The body is `try: S0; S1; S2 finally: search_page.close()` — there is no
`except` clause, so an exception in the home-page step (S0) propagates to
the caller (modelled as `Except.error ()`) after the `finally` closes the
search page.  Each contact-path navigation of S1 has its own
`try/except Exception` and a failure only skips that path.  S2 opens a page
on the proxied context, calls the fallback (which never raises) and closes
that page. -/

/-- Sweep of the contact paths: returns the first email found (short-circuit)
and the list of URLs attempted, in order. -/
def sweepPaths (w : World) (base : Str) : List Str → Option Str × List Str
  | [] => (none, [])
  | p :: ps =>
    let u := rstripSlash base ++ p
    match w.nav u with
    | NavResult.ok (some e) => (some e, [u])
    | _ =>
      let r := sweepPaths w base ps
      (r.1, u :: r.2)

deriving instance DecidableEq for Except

/-- Observable outcome of one engine invocation.  `result` is the returned
value (`Except.error ()` models a propagated exception), `visited` the
site-identity navigations attempted in order (home page first), `fallback`
the URLs handed to the search-engine fallback, and
`pagesOpened`/`pagesClosed` count the browser pages this invocation opened
and closed (the search page, plus the ephemeral proxy page when S2 runs). -/
structure EngineRun where
  result : Except Unit (Option Str)
  visited : List Str
  fallback : List Str
  pagesOpened : Nat
  pagesClosed : Nat
deriving DecidableEq

/-- `search_email_on_website` (escrape.py 94-135). -/
def search_email_on_website (w : World) (url : Str) : EngineRun :=
  match w.nav url with
  | NavResult.err =>
    { result := Except.error (), visited := [url], fallback := [],
      pagesOpened := 1, pagesClosed := 1 }
  | NavResult.ok (some e) =>
    { result := Except.ok (some e), visited := [url], fallback := [],
      pagesOpened := 1, pagesClosed := 1 }
  | NavResult.ok none =>
    match sweepPaths w url commonContactPaths with
    | (some e, vs) =>
      { result := Except.ok (some e), visited := url :: vs, fallback := [],
        pagesOpened := 1, pagesClosed := 1 }
    | (none, vs) =>
      let sr := perform_site_specific_google_search w url
      { result := Except.ok sr.email, visited := url :: vs, fallback := [url],
        pagesOpened := 2, pagesClosed := 2 }

/-! ### Listing Loader (`scroll_to_load_more`, escrape.py 142-229)

The rendered listing count is an external observation; successive reads of
`len(page.locator(...).all())` are modelled as a stream `counts : Nat → Nat`
consumed one reading per call.  The panel lookup and the scroll step are
modelled as always finding the panel when `panelFound` is true (the panel
does not disappear mid-run).  The printed messages "Required items reached",
"Stopping scroll - no additional results" and "Results panel not found" are
modelled as the returned status. -/

/-- Why the loader stopped. -/
inductive ScrollStatus where
  | reached : ScrollStatus
  | stalled : ScrollStatus
  | maxedOut : ScrollStatus
  | noPanel : ScrollStatus
deriving DecidableEq

/-- Outcome of the loader: status, number of scroll steps performed, and
number of grace-wait rechecks performed. -/
structure ScrollRun where
  status : ScrollStatus
  scrolls : Nat
  rechecks : Nat
deriving DecidableEq

/-- The `while scroll_count < max_scrolls` loop (escrape.py 172-219).
`fuel` is `max_scrolls - scroll_count`, `prev` is `previous_count`, `i` the
next index of the count stream, `k` the scrolls performed so far and `g`
the grace rechecks performed so far. -/
def scrollLoop (counts : Nat → Nat) (required : Nat) :
    Nat → Nat → Nat → Nat → Nat → ScrollRun
  | 0, _, _, k, g => { status := ScrollStatus.maxedOut, scrolls := k, rechecks := g }
  | fuel + 1, prev, i, k, g =>
    let c := counts i
    if required ≤ c then
      { status := ScrollStatus.reached, scrolls := k, rechecks := g }
    else if c = prev then
      let c2 := counts (i + 1)
      if c2 = prev then
        { status := ScrollStatus.stalled, scrolls := k, rechecks := g + 1 }
      else scrollLoop counts required fuel c2 (i + 2) (k + 1) (g + 1)
    else scrollLoop counts required fuel c (i + 1) (k + 1) g

/-- `scroll_to_load_more` (escrape.py 142-229): `previous_count = 0`,
`scroll_count = 0` initially; an absent results panel returns immediately. -/
def scroll_to_load_more (panelFound : Bool) (counts : Nat → Nat)
    (required maxScrolls : Nat) : ScrollRun :=
  if panelFound then scrollLoop counts required maxScrolls 0 0 0 0
  else { status := ScrollStatus.noPanel, scrolls := 0, rechecks := 0 }

/-! ### Business records and the per-listing loop (`scrape_google_maps`,
escrape.py 241-379)

A `Business` dataclass field is `None` until assigned; the detail-extraction
block (escrape.py 332-337) assigns the four text fields (each defaulted to
`""` by `or ""`) and the coordinates.  An exception anywhere in the listing
body is caught by the per-listing `except Exception` (line 367) and the
`finally` (line 369) appends whatever the local variable `business`
currently holds.  Python scoping makes `business` function-scoped: if the
exception occurred before `business = Business()` (line 332) — e.g. in
`listing.click()` — the variable still holds the *previous* listing's
record (appending a duplicate), and on the very first listing it is unbound
and the append raises `NameError`, which no handler catches. -/

/-- One output row.  `none` models an unassigned (`None`) field. -/
structure BusinessData where
  name : Option Str
  address : Option Str
  website : Option Str
  phone_number : Option Str
  email : Option Str
  latitude : Option DecNum
  longitude : Option DecNum
deriving DecidableEq

instance : Inhabited BusinessData :=
  ⟨⟨none, none, none, none, none, none, none⟩⟩

/-- Oracle outcome of clicking one listing and running the detail-extraction
block (escrape.py 329-337): the click/wait raised before `business =
Business()`; some field lookup raised after it, leaving a partially filled
record; or all fields were read, producing `b` (with `email` not yet set). -/
inductive DetailOutcome where
  | raiseBeforeRecord : DetailOutcome
  | raiseDuringFields : BusinessData → DetailOutcome
  | fields : BusinessData → DetailOutcome
deriving DecidableEq

/-- Environment of one `scrape_google_maps` invocation: the browser oracles,
whether the pre-loop setup (ipify check, maps load, query, results selector,
hover — escrape.py 296-319) succeeds, the listing handles rendered after
`scroll_to_load_more`, the detail-extraction oracle, and whether the
per-listing local-browser ipify check (escrape.py 358) succeeds. -/
structure ScrapeEnv where
  web : World
  setupOk : Bool
  rendered : List Nat
  detail : Nat → DetailOutcome
  ipifyNav : Nat → Bool

/-- Scheme normalization applied by the orchestrator before validation
(escrape.py 344-345): prepend `https://` when no scheme is present. -/
def normalizeUrl (w : Str) : Str :=
  if "http://".toList.isPrefixOf w || "https://".toList.isPrefixOf w then w
  else "https://".toList ++ w

/-- Input validation of `scrape_google_maps` (escrape.py 247-250):

```python
if not (proxy_server.startswith("http://") and not proxy_server.startswith("https://")):
    raise ValueError(f"Invalid proxy format: ...")
if not user_agent:
    raise ValueError("User agent cannot be empty.")
``` -/
def validateScrapeInputs (proxy ua : Str) : Except Str Unit :=
  if !("http://".toList.isPrefixOf proxy && !("https://".toList.isPrefixOf proxy)) then
    Except.error ("Invalid proxy format".toList)
  else if ua.isEmpty then
    Except.error ("User agent cannot be empty.".toList)
  else Except.ok ()

/-- The website/email part of one listing body (escrape.py 339-365), entered
after all detail fields were read.  Returns the record that the `finally`
will append and the number of handles (the per-listing `local_context` and
its `local_page`) left open past the listing scope: the code closes
`local_context` on line 363 *inside* the `try`, so a raise in the ipify
check (line 358) or in `search_email_on_website` skips the close and both
handles stay open until `local_browser.close()` at teardown. -/
def listingFieldsStep (env : ScrapeEnv) (l : Nat) (b : BusinessData) :
    BusinessData × Nat :=
  let rec0 : BusinessData := { b with email := none }
  match rec0.website with
  | none => (rec0, 0)
  | some wsite =>
    if wsite.isEmpty then (rec0, 0)
    else
      let wn := normalizeUrl wsite
      let rec1 : BusinessData := { rec0 with website := some wn }
      if is_valid_url wn then
        if env.ipifyNav l then
          match (search_email_on_website env.web wn).result with
          | Except.error _ => (rec1, 2)
          | Except.ok e => ({ rec1 with email := e }, 0)
        else (rec1, 2)
      else (rec1, 0)

/-- The record freshly produced by one listing's own body, when one exists:
`none` for a raise before `business = Business()` (the `finally` then appends
a stale record or raises `NameError`). -/
def freshRecordOf (env : ScrapeEnv) (l : Nat) : Option BusinessData :=
  match env.detail l with
  | DetailOutcome.raiseBeforeRecord => none
  | DetailOutcome.raiseDuringFields part => some part
  | DetailOutcome.fields b => some (listingFieldsStep env l b).1

/-- One iteration of the per-listing loop (escrape.py 327-370).  `prev` is
the current value of the function-scoped variable `business` (`none` =
unbound).  Returns the record appended by the `finally` plus the handles
leaked by this iteration, or `Except.error ()` for the uncaught `NameError`
raised when the `finally` reads an unbound `business`. -/
def processListing (env : ScrapeEnv) (prev : Option BusinessData) (l : Nat) :
    Except Unit (BusinessData × Nat) :=
  match env.detail l with
  | DetailOutcome.raiseBeforeRecord =>
    match prev with
    | none => Except.error ()
    | some b => Except.ok (b, 0)
  | DetailOutcome.raiseDuringFields part => Except.ok (part, 0)
  | DetailOutcome.fields b => Except.ok (listingFieldsStep env l b)

/-- The whole per-listing loop: returns the result collection in order (or
`Except.error ()` when a `NameError` aborted it) together with the total
number of handles leaked past their listing scope. -/
def processListings (env : ScrapeEnv) :
    List Nat → Option BusinessData → Except Unit (List BusinessData) × Nat
  | [], _ => (Except.ok [], 0)
  | l :: ls, prev =>
    match processListing env prev l with
    | Except.error _ => (Except.error (), 0)
    | Except.ok (b, leak) =>
      match processListings env ls (some b) with
      | (Except.error _, lk) => (Except.error (), leak + lk)
      | (Except.ok col, lk) => (Except.ok (b :: col), leak + lk)

/-- Observable outcome of `scrape_google_maps`: the returned/raised result,
the collection handed to the output sink (`none` when the run aborted before
saving), how many browser sessions were launched and closed, and how many
handles leaked past their per-listing scope. -/
structure ScrapeRun where
  outcome : Except Str (List BusinessData)
  saved : Option (List BusinessData)
  browsersLaunched : Nat
  browsersClosed : Nat
  leakedHandles : Nat
deriving DecidableEq

/-- `scrape_google_maps` (escrape.py 241-379).  Validation precedes the
`sync_playwright` block, so a validation error launches nothing; once the
browsers are launched the outer `try/finally` guarantees both
`proxy_browser.close()` and `local_browser.close()` on every outcome.
`listings` is truncated to the requested total by `[:total]` (line 320). -/
def scrape_google_maps (env : ScrapeEnv) (proxy ua : Str) (total : Nat) : ScrapeRun :=
  match validateScrapeInputs proxy ua with
  | Except.error e =>
    { outcome := Except.error e, saved := none, browsersLaunched := 0,
      browsersClosed := 0, leakedHandles := 0 }
  | Except.ok _ =>
    if env.setupOk then
      match processListings env (env.rendered.take total) none with
      | (Except.error _, lk) =>
        { outcome := Except.error ("NameError".toList), saved := none,
          browsersLaunched := 2, browsersClosed := 2, leakedHandles := lk }
      | (Except.ok col, lk) =>
        { outcome := Except.ok col, saved := some col,
          browsersLaunched := 2, browsersClosed := 2, leakedHandles := lk }
    else
      { outcome := Except.error ("setup failed".toList), saved := none,
        browsersLaunched := 2, browsersClosed := 2, leakedHandles := 0 }

/-! ### Lemmas about the contact-path sweep -/

theorem sweep_all_miss (w : World) (base : Str) :
    ∀ ps : List Str, (∀ q ∈ ps, isHit w (rstripSlash base ++ q) = false) →
      sweepPaths w base ps = (none, ps.map fun q => rstripSlash base ++ q)
  | [], _ => rfl
  | p :: ps, h => by
    have hp : isHit w (rstripSlash base ++ p) = false := h p (List.mem_cons_self p ps)
    have ih := sweep_all_miss w base ps fun q hq => h q (List.mem_cons_of_mem _ hq)
    cases hnav : w.nav (rstripSlash base ++ p) with
    | err => simp [sweepPaths, hnav, ih]
    | ok e =>
      cases e with
      | none => simp [sweepPaths, hnav, ih]
      | some e => rw [isHit, hnav] at hp; exact absurd hp (by simp)

theorem sweep_first_hit (w : World) (base : Str) :
    ∀ (pre : List Str) (p : Str) (post : List Str) (e : Str),
      (∀ q ∈ pre, isHit w (rstripSlash base ++ q) = false) →
      w.nav (rstripSlash base ++ p) = NavResult.ok (some e) →
      sweepPaths w base (pre ++ p :: post) =
        (some e, (pre ++ [p]).map fun q => rstripSlash base ++ q)
  | [], p, post, e, _, hhit => by simp [sweepPaths, hhit]
  | q :: pre, p, post, e, hmiss, hhit => by
    have hq : isHit w (rstripSlash base ++ q) = false := hmiss q (List.mem_cons_self q pre)
    have ih := sweep_first_hit w base pre p post e
      (fun r hr => hmiss r (List.mem_cons_of_mem _ hr)) hhit
    cases hnav : w.nav (rstripSlash base ++ q) with
    | err => simp [sweepPaths, hnav, ih]
    | ok o =>
      cases o with
      | none => simp [sweepPaths, hnav, ih]
      | some o => rw [isHit, hnav] at hq; exact absurd hq (by simp)

theorem sweep_none_inv (w : World) (base : Str) :
    ∀ (ps : List Str) (vs : List Str), sweepPaths w base ps = (none, vs) →
      (∀ q ∈ ps, isHit w (rstripSlash base ++ q) = false) ∧
        vs = ps.map fun q => rstripSlash base ++ q
  | [], vs, h => by
    refine ⟨by simp, ?_⟩
    simpa [sweepPaths] using (congrArg Prod.snd h).symm
  | p :: ps, vs, h => by
    cases hnav : w.nav (rstripSlash base ++ p) with
    | err =>
      rw [sweepPaths, hnav] at h
      simp only [Prod.mk.injEq] at h
      obtain ⟨ih1, ih2⟩ := sweep_none_inv w base ps (sweepPaths w base ps).2
        (by rw [← h.1])
      refine ⟨?_, ?_⟩
      · intro q hq
        rcases List.mem_cons.1 hq with hq | hq
        · subst hq; rw [isHit, hnav]
        · exact ih1 q hq
      · rw [← h.2, ih2, List.map_cons]
    | ok o =>
      cases o with
      | none =>
        rw [sweepPaths, hnav] at h
        simp only [Prod.mk.injEq] at h
        obtain ⟨ih1, ih2⟩ := sweep_none_inv w base ps (sweepPaths w base ps).2
          (by rw [← h.1])
        refine ⟨?_, ?_⟩
        · intro q hq
          rcases List.mem_cons.1 hq with hq | hq
          · subst hq; rw [isHit, hnav]
          · exact ih1 q hq
        · rw [← h.2, ih2, List.map_cons]
      | some e =>
        rw [sweepPaths, hnav] at h
        exact absurd (congrArg Prod.fst h) (by simp)

/-! ### Claim C1 -/

/-- C1: the Email Discovery Engine visits its stages in strict fallback
order, terminating at the first success.  (1) If the home page yields an
email, no contact path and no search-engine query is visited.  (2) During
the contact-path sweep the fixed ordered list is traversed in order and
short-circuits at the first path whose page yields an email.  (3) If the
home page and every contact path fail to yield an email, the search-engine
fallback runs and its result is the engine's result.  (4) The fallback is
entered *only* in that case. -/
theorem C1_engine_fallback_order (w : World) (url : Str) :
    (∀ e, w.nav url = NavResult.ok (some e) →
      search_email_on_website w url =
        { result := Except.ok (some e), visited := [url], fallback := [],
          pagesOpened := 1, pagesClosed := 1 })
    ∧ (∀ (pre : List Str) (p : Str) (post : List Str) (e : Str),
        w.nav url = NavResult.ok none →
        commonContactPaths = pre ++ p :: post →
        (∀ q ∈ pre, isHit w (rstripSlash url ++ q) = false) →
        w.nav (rstripSlash url ++ p) = NavResult.ok (some e) →
        search_email_on_website w url =
          { result := Except.ok (some e),
            visited := url :: (pre ++ [p]).map (fun q => rstripSlash url ++ q),
            fallback := [], pagesOpened := 1, pagesClosed := 1 })
    ∧ (w.nav url = NavResult.ok none →
        (∀ q ∈ commonContactPaths, isHit w (rstripSlash url ++ q) = false) →
        search_email_on_website w url =
          { result := Except.ok (perform_site_specific_google_search w url).email,
            visited := url :: contactUrls url, fallback := [url],
            pagesOpened := 2, pagesClosed := 2 })
    ∧ ((search_email_on_website w url).fallback ≠ [] →
        w.nav url = NavResult.ok none ∧
          ∀ q ∈ commonContactPaths, isHit w (rstripSlash url ++ q) = false) := by
  refine ⟨?_, ?_, ?_, ?_⟩
  · intro e he
    simp [search_email_on_website, he]
  · intro pre p post e hhome hcc hmiss hhit
    have hsw := sweep_first_hit w url pre p post e hmiss hhit
    rw [← hcc] at hsw
    simp [search_email_on_website, hhome, hsw]
  · intro hhome hmiss
    have hsw := sweep_all_miss w url commonContactPaths hmiss
    simp [search_email_on_website, hhome, hsw, contactUrls]
  · intro hfb
    cases hnav : w.nav url with
    | err => rw [search_email_on_website, hnav] at hfb; simp at hfb
    | ok o =>
      cases o with
      | some e => rw [search_email_on_website, hnav] at hfb; simp at hfb
      | none =>
        refine ⟨rfl, ?_⟩
        rcases hsw : sweepPaths w url commonContactPaths with ⟨r, vs⟩
        cases r with
        | some e => rw [search_email_on_website, hnav, hsw] at hfb; simp at hfb
        | none => exact (sweep_none_inv w url commonContactPaths vs hsw).1

/-- Concrete world for the C1 witness: the home page of `http://a.bc`
yields an email; on `http://c.de` the home page and the first two contact
paths yield none, `/about-us` yields one; on `http://f.gh` nothing yields
an email anywhere and the search engine returns one. -/
def wC1 : World :=
  { nav := fun u =>
      if u = "http://a.bc".toList then NavResult.ok (some ("e@a.bc".toList))
      else if u = "http://c.de/about-us".toList then NavResult.ok (some ("k@c.de".toList))
      else if u = "http://c.de/contact".toList then NavResult.err
      else NavResult.ok none,
    searchNav := fun u =>
      if u = "http://f.gh".toList then NavResult.ok (some ("s@f.gh".toList))
      else NavResult.ok none }

theorem C1_engine_fallback_order_witness :
    search_email_on_website wC1 ("http://a.bc".toList) =
      { result := Except.ok (some ("e@a.bc".toList)), visited := ["http://a.bc".toList],
        fallback := [], pagesOpened := 1, pagesClosed := 1 }
    ∧ search_email_on_website wC1 ("http://c.de".toList) =
      { result := Except.ok (some ("k@c.de".toList)),
        visited := ["http://c.de".toList,
          "http://c.de/about".toList, "http://c.de/contact".toList,
          "http://c.de/about-us".toList],
        fallback := [], pagesOpened := 1, pagesClosed := 1 }
    ∧ search_email_on_website wC1 ("http://f.gh".toList) =
      { result := Except.ok (some ("s@f.gh".toList)),
        visited := "http://f.gh".toList :: contactUrls ("http://f.gh".toList),
        fallback := ["http://f.gh".toList], pagesOpened := 2, pagesClosed := 2 } := by
  refine ⟨(C1_engine_fallback_order wC1 ("http://a.bc".toList)).1 _ (by decide), ?_, ?_⟩
  · have h2 := (C1_engine_fallback_order wC1 ("http://c.de".toList)).2.1
      ["/about".toList, "/contact".toList] ("/about-us".toList)
      ["/contact-us".toList, "/support".toList, "/help".toList, "/get-in-touch".toList]
      ("k@c.de".toList) (by decide) (by decide) (by decide) (by decide)
    rw [h2]
    decide
  · have h3 := (C1_engine_fallback_order wC1 ("http://f.gh".toList)).2.2.1
      (by decide) (by decide)
    rw [h3]
    decide

/-! ### Claim C2 -/

/-- C2: when no email is discoverable at any stage the engine returns none
without raising.  (1) If the home page loads but yields no email, no contact
path yields an email (whether it errors or loads empty-handed), and the
search-engine fallback yields no email, the engine returns `none` normally.
(2) A timeout or exception in the search-engine fallback makes the fallback
— and hence the engine — return `none`.  (3) A timeout or navigation error
for one contact path is treated as no match for that path and the sweep
continues with the next paths, so a later path's email is still found.
(The home-page navigation of S0 is assumed to load: the source wraps S0 in
`try/finally` without `except`, so only contact-path and fallback failures
are swallowed — exactly the cases this claim enumerates.) -/
theorem C2_no_email_returns_none (w : World) (url : Str) :
    (w.nav url = NavResult.ok none →
      (∀ q ∈ commonContactPaths, isHit w (rstripSlash url ++ q) = false) →
      (perform_site_specific_google_search w url).email = none →
      (search_email_on_website w url).result = Except.ok none)
    ∧ (w.searchNav url = NavResult.err →
        (perform_site_specific_google_search w url).email = none)
    ∧ (∀ (pre : List Str) (p : Str) (post : List Str) (e : Str),
        w.nav url = NavResult.ok none →
        commonContactPaths = pre ++ p :: post →
        (∀ q ∈ pre, w.nav (rstripSlash url ++ q) = NavResult.err ∨
          w.nav (rstripSlash url ++ q) = NavResult.ok none) →
        w.nav (rstripSlash url ++ p) = NavResult.ok (some e) →
        (search_email_on_website w url).result = Except.ok (some e)) := by
  refine ⟨?_, ?_, ?_⟩
  · intro hhome hmiss hsearch
    have hsw := sweep_all_miss w url commonContactPaths hmiss
    simp [search_email_on_website, hhome, hsw, hsearch]
  · intro herr
    rw [perform_site_specific_google_search]
    split
    · rfl
    · rw [herr]
  · intro pre p post e hhome hcc hmiss hhit
    have hmiss' : ∀ q ∈ pre, isHit w (rstripSlash url ++ q) = false := by
      intro q hq
      rcases hmiss q hq with h | h <;> rw [isHit, h]
    have hsw := sweep_first_hit w url pre p post e hmiss' hhit
    rw [← hcc] at hsw
    simp [search_email_on_website, hhome, hsw]

/-- Concrete world for the C2 witness: on `http://n.op` the home page loads
without an email, `/about` and `/support` raise, every other contact path
loads without an email, and the search-engine query raises. -/
def wC2 : World :=
  { nav := fun u =>
      if u = "http://n.op/about".toList then NavResult.err
      else if u = "http://n.op/support".toList then NavResult.err
      else NavResult.ok none,
    searchNav := fun _ => NavResult.err }

/-- Concrete world for the C2 witness, third part: `/about` raises and
`/contact` yields an email. -/
def wC2b : World :=
  { nav := fun u =>
      if u = "http://q.rs/about".toList then NavResult.err
      else if u = "http://q.rs/contact".toList then NavResult.ok (some ("c@q.rs".toList))
      else NavResult.ok none,
    searchNav := fun _ => NavResult.ok none }

theorem C2_no_email_returns_none_witness :
    (search_email_on_website wC2 ("http://n.op".toList)).result = Except.ok none
    ∧ (perform_site_specific_google_search wC2 ("http://n.op".toList)).email = none
    ∧ (search_email_on_website wC2b ("http://q.rs".toList)).result =
        Except.ok (some ("c@q.rs".toList)) := by
  refine ⟨?_, ?_, ?_⟩
  · exact (C2_no_email_returns_none wC2 ("http://n.op".toList)).1 (by decide)
      (by decide) ((C2_no_email_returns_none wC2 ("http://n.op".toList)).2.1 (by decide))
  · exact (C2_no_email_returns_none wC2 ("http://n.op".toList)).2.1 (by decide)
  · exact (C2_no_email_returns_none wC2b ("http://q.rs".toList)).2.2
      ["/about".toList] ("/contact".toList)
      ["/about-us".toList, "/contact-us".toList, "/support".toList, "/help".toList,
       "/get-in-touch".toList]
      ("c@q.rs".toList) (by decide) (by decide) (by decide) (by decide)

/-! ### Claim C10 -/

/-- The engine's fallback list is empty or the singleton of its input URL:
`search_email_on_website` passes `website_url` to the fallback unchanged. -/
theorem engine_fallback_cases (w : World) (url : Str) :
    (search_email_on_website w url).fallback = [] ∨
      (search_email_on_website w url).fallback = [url] := by
  rw [search_email_on_website]
  cases w.nav url with
  | err => left; rfl
  | ok o =>
    cases o with
    | some e => left; rfl
    | none =>
      rcases sweepPaths w url commonContactPaths with ⟨r, vs⟩
      cases r with
      | some e => left; rfl
      | none => right; rfl

/-- C10: under the orchestrator's normalization (escrape.py 344-345), every
website URL reaching email discovery starts with `http://` or `https://`,
the URL handed to the search-engine fallback is the normalized URL itself,
and the fallback's invalid-URL early-return branch is therefore
unreachable. -/
theorem C10_invalid_branch_unreachable (w : World) (site : Str) :
    site ≠ [] →
    is_valid_url (normalizeUrl site) = true →
    ("http://".toList <+: normalizeUrl site ∨ "https://".toList <+: normalizeUrl site)
    ∧ (∀ u ∈ (search_email_on_website w (normalizeUrl site)).fallback,
        u = normalizeUrl site)
    ∧ (perform_site_specific_google_search w (normalizeUrl site)).invalidUrl = false := by
  intro _ _
  have hpre : "http://".toList <+: normalizeUrl site ∨
      "https://".toList <+: normalizeUrl site := by
    rw [normalizeUrl]
    split
    · rename_i h
      rw [Bool.or_eq_true] at h
      rcases h with h' | h'
      · exact Or.inl (List.isPrefixOf_iff_prefix.1 h')
      · exact Or.inr (List.isPrefixOf_iff_prefix.1 h')
    · exact Or.inr (List.prefix_append _ _)
  refine ⟨hpre, ?_, ?_⟩
  · intro u hu
    rcases engine_fallback_cases w (normalizeUrl site) with h | h <;> rw [h] at hu
    · exact absurd hu (List.not_mem_nil u)
    · simpa using hu
  · have hb : ("http://".toList.isPrefixOf (normalizeUrl site) ||
        "https://".toList.isPrefixOf (normalizeUrl site)) = true := by
      rw [Bool.or_eq_true]
      rcases hpre with h | h
      · exact Or.inl (List.isPrefixOf_iff_prefix.2 h)
      · exact Or.inr (List.isPrefixOf_iff_prefix.2 h)
    rw [perform_site_specific_google_search, hb]
    simp only [Bool.not_true, Bool.false_eq_true, if_false]
    cases w.searchNav (normalizeUrl site) <;> rfl

theorem C10_invalid_branch_unreachable_witness :
    ("http://".toList <+: normalizeUrl ("example.com".toList) ∨
      "https://".toList <+: normalizeUrl ("example.com".toList))
    ∧ (∀ u ∈ (search_email_on_website wC2 (normalizeUrl ("example.com".toList))).fallback,
        u = normalizeUrl ("example.com".toList))
    ∧ (perform_site_specific_google_search wC2
        (normalizeUrl ("example.com".toList))).invalidUrl = false :=
  C10_invalid_branch_unreachable wC2 ("example.com".toList) (by decide) (by decide)

/-! ### Claim C5 -/

/-- The loop never performs more than `k + fuel` scrolls starting from `k`
performed. -/
theorem scrollLoop_scrolls_le (counts : Nat → Nat) (req : Nat) :
    ∀ (fuel prev i k g : Nat), (scrollLoop counts req fuel prev i k g).scrolls ≤ k + fuel
  | 0, _, _, k, _ => by simp [scrollLoop]
  | fuel + 1, prev, i, k, g => by
    simp only [scrollLoop]
    by_cases h1 : req ≤ counts i
    · rw [if_pos h1]; show k ≤ k + (fuel + 1); omega
    · rw [if_neg h1]
      by_cases h2 : counts i = prev
      · rw [if_pos h2]
        by_cases h3 : counts (i + 1) = prev
        · rw [if_pos h3]; show k ≤ k + (fuel + 1); omega
        · rw [if_neg h3]
          have := scrollLoop_scrolls_le counts req fuel (counts (i + 1)) (i + 2) (k + 1) (g + 1)
          omega
      · rw [if_neg h2]
        have := scrollLoop_scrolls_le counts req fuel (counts i) (i + 1) (k + 1) g
        omega

/-- C5: the Listing Loader (1) stops as soon as a loop-top reading reaches
the target `required`, performing no further scroll; (2) on a feed stalled
at `K < required` (every reading returns `K`) it performs exactly one
grace-wait recheck and stops with a stalled outcome (after the single
initial scroll that first observed `K`, none when `K` is the initial
`previous_count = 0`); and (3) never performs more than `maxScrolls` scroll
iterations. -/
theorem C5_listing_loader (counts : Nat → Nat) (required maxScrolls : Nat) :
    (∀ fuel prev i k g, required ≤ counts i →
      scrollLoop counts required (fuel + 1) prev i k g =
        { status := ScrollStatus.reached, scrolls := k, rechecks := g })
    ∧ (∀ K, (∀ i, counts i = K) → K < required → 2 ≤ maxScrolls →
        scroll_to_load_more true counts required maxScrolls =
          { status := ScrollStatus.stalled, scrolls := if K = 0 then 0 else 1,
            rechecks := 1 })
    ∧ (∀ panelFound, (scroll_to_load_more panelFound counts required maxScrolls).scrolls
        ≤ maxScrolls) := by
  refine ⟨?_, ?_, ?_⟩
  · intro fuel prev i k g hreach
    simp only [scrollLoop]
    rw [if_pos hreach]
  · intro K hK hKlt hge
    obtain ⟨m, rfl⟩ : ∃ m, maxScrolls = m + 2 := ⟨maxScrolls - 2, by omega⟩
    rw [scroll_to_load_more, if_pos rfl]
    have hnle : ¬ required ≤ K := Nat.not_le.2 hKlt
    by_cases hK0 : K = 0
    · subst hK0
      show scrollLoop counts required (m + 1 + 1) 0 0 0 0 = _
      simp only [scrollLoop, hK 0, hK 1]
      simp [hnle]
    · show scrollLoop counts required (m + 1 + 1) 0 0 0 0 = _
      simp only [scrollLoop, hK 0, hK 1, hK 2]
      simp [hnle, hK0]
  · intro panelFound
    cases panelFound with
    | false => simp [scroll_to_load_more]
    | true =>
      rw [scroll_to_load_more, if_pos rfl]
      have := scrollLoop_scrolls_le counts required maxScrolls 0 0 0 0
      omega

theorem C5_listing_loader_witness :
    scroll_to_load_more true (fun _ => 3) 10 10 =
      { status := ScrollStatus.stalled, scrolls := 1, rechecks := 1 }
    ∧ scrollLoop (fun _ => 12) 10 1 0 0 0 0 =
      { status := ScrollStatus.reached, scrolls := 0, rechecks := 0 }
    ∧ (scroll_to_load_more true (fun _ => 3) 10 10).scrolls ≤ 10 := by
  refine ⟨?_, ?_, ?_⟩
  · have h := (C5_listing_loader (fun _ => 3) 10 10).2.1 3 (fun _ => rfl)
      (by decide) (by decide)
    simpa using h
  · exact (C5_listing_loader (fun _ => 12) 10 1).1 0 0 0 0 0 (by decide)
  · exact (C5_listing_loader (fun _ => 3) 10 10).2.2 true

/-! ### Lemmas about the per-listing loop -/

/-- A listing whose click/wait does not raise before `business = Business()`
appends its own fresh record, whatever the previous state of the `business`
variable. -/
theorem processListing_of_not_raiseBefore (env : ScrapeEnv) (prev : Option BusinessData)
    (l : Nat) (h : env.detail l ≠ DetailOutcome.raiseBeforeRecord) :
    ∃ b lk, processListing env prev l = Except.ok (b, lk) ∧
      freshRecordOf env l = some b := by
  cases hd : env.detail l with
  | raiseBeforeRecord => exact absurd hd h
  | raiseDuringFields part =>
    exact ⟨part, 0, by simp [processListing, hd], by simp [freshRecordOf, hd]⟩
  | fields b =>
    exact ⟨(listingFieldsStep env l b).1, (listingFieldsStep env l b).2,
      by simp [processListing, hd], by simp [freshRecordOf, hd]⟩

/-- Whatever record an iteration appends either is the listing's own fresh
record or is the stale value of the `business` variable. -/
theorem processListing_ok_origin (env : ScrapeEnv) (prev : Option BusinessData)
    (l : Nat) (b : BusinessData) (lk : Nat)
    (h : processListing env prev l = Except.ok (b, lk)) :
    freshRecordOf env l = some b ∨ prev = some b := by
  cases hd : env.detail l with
  | raiseBeforeRecord =>
    simp only [processListing, hd] at h
    cases prev with
    | none => exact absurd h (by simp)
    | some b' =>
      right
      simp only [Except.ok.injEq, Prod.mk.injEq] at h
      rw [h.1]
  | raiseDuringFields part =>
    simp only [processListing, hd] at h
    simp only [Except.ok.injEq, Prod.mk.injEq] at h
    left
    rw [freshRecordOf, hd, h.1]
  | fields b' =>
    simp only [processListing, hd] at h
    left
    rw [freshRecordOf, hd]
    exact congrArg (some ·) (congrArg Prod.fst (Except.ok.inj h))

/-- A successful run of the loop appends exactly one record per listing. -/
theorem processListings_ok_length (env : ScrapeEnv) :
    ∀ (ls : List Nat) (prev : Option BusinessData) (col : List BusinessData) (lk : Nat),
      processListings env ls prev = (Except.ok col, lk) → col.length = ls.length
  | [], _, col, lk, h => by
    simp only [processListings, Prod.mk.injEq, Except.ok.injEq] at h
    rw [← h.1]
    rfl
  | l :: ls, prev, col, lk, h => by
    rw [processListings] at h
    split at h
    · exact absurd (congrArg Prod.fst h) (by simp)
    · rename_i b leak heq
      split at h
      · exact absurd (congrArg Prod.fst h) (by simp)
      · rename_i hcolrec col' lk2 heq2
        have hcol : b :: col' = col := by
          have := congrArg Prod.fst h
          simpa using this
        have ih := processListings_ok_length env ls (some b) col' lk2 heq2
        rw [← hcol, List.length_cons, ih, List.length_cons]

/-- Every record of a successful run originates from some listing of the run
(possibly, through the stale `business` variable, a listing other than the
one whose iteration appended it). -/
theorem processListings_origin (env : ScrapeEnv) (A : List Nat) :
    ∀ (ls : List Nat) (prev : Option BusinessData) (col : List BusinessData) (lk : Nat),
      processListings env ls prev = (Except.ok col, lk) →
      (∀ l ∈ ls, l ∈ A) →
      (∀ b, prev = some b → ∃ l ∈ A, freshRecordOf env l = some b) →
      ∀ r ∈ col, ∃ l ∈ A, freshRecordOf env l = some r
  | [], _, col, lk, h, _, _ => by
    intro r hr
    simp only [processListings, Prod.mk.injEq, Except.ok.injEq] at h
    rw [← h.1] at hr
    exact absurd hr (List.not_mem_nil r)
  | l :: ls, prev, col, lk, h, hA, hprev => by
    rw [processListings] at h
    split at h
    · exact absurd (congrArg Prod.fst h) (by simp)
    · rename_i b leak heq
      split at h
      · exact absurd (congrArg Prod.fst h) (by simp)
      · rename_i hcolrec col' lk2 heq2
        have hcol : b :: col' = col := by
          have := congrArg Prod.fst h
          simpa using this
        have hborigin : ∃ l' ∈ A, freshRecordOf env l' = some b := by
          rcases processListing_ok_origin env prev l b leak heq with ho | ho
          · exact ⟨l, hA l (List.mem_cons_self l ls), ho⟩
          · exact hprev b ho
        intro r hr
        rw [← hcol] at hr
        rcases List.mem_cons.1 hr with hr | hr
        · rw [hr]; exact hborigin
        · exact processListings_origin env A ls (some b) col' lk2 heq2
            (fun l' hl' => hA l' (List.mem_cons_of_mem _ hl'))
            (fun b' hb => by
              rw [Option.some.injEq] at hb
              rw [← hb]
              exact hborigin)
            r hr

/-! ### Claim C3 (corrected) -/

/-- Environment refuting C3 as stated: the click of the very first listing
raises.  The per-listing `finally` then evaluates the unbound local
`business`, raising an uncaught `NameError`: no record at all is appended
for that listing and processing does not move on to the next listing. -/
def envC3 : ScrapeEnv :=
  { web := { nav := fun _ => NavResult.ok none, searchNav := fun _ => NavResult.ok none },
    setupOk := true,
    rendered := [0, 1],
    detail := fun l =>
      if l = 0 then DetailOutcome.raiseBeforeRecord
      else DetailOutcome.fields
        { name := some ("B1".toList), address := some ("A1".toList), website := none,
          phone_number := some ("P1".toList), email := none,
          latitude := none, longitude := none },
    ipifyNav := fun _ => true }

/-- Environment exhibiting the stale-append behaviour: listing 1's click
raises after listing 0 completed, so the `finally` re-appends listing 0's
record instead of a fresh (partially filled) record for listing 1. -/
def envC3b : ScrapeEnv :=
  { web := { nav := fun _ => NavResult.ok none, searchNav := fun _ => NavResult.ok none },
    setupOk := true,
    rendered := [0, 1],
    detail := fun l =>
      if l = 0 then DetailOutcome.fields
        { name := some ("B0".toList), address := some ("A0".toList), website := none,
          phone_number := some ("P0".toList), email := none,
          latitude := none, longitude := none }
      else DetailOutcome.raiseBeforeRecord,
    ipifyNav := fun _ => true }

/-- C3 counterexample: with the click of the first listing raising, the loop
appends nothing and aborts with an uncaught `NameError` (left conjunct); and
when a later listing's click raises, the iteration appends the *previous*
listing's record a second time rather than a fresh partially-filled record
(right conjunct) — refuting "exactly one BusinessRecord is appended per
listing, including when an unexpected exception occurs partway through that
listing's detail extraction". -/
theorem C3_counterexample :
    processListings envC3 [0, 1] none = (Except.error (), 0)
    ∧ processListings envC3b [0, 1] none =
      (Except.ok
        [{ name := some ("B0".toList), address := some ("A0".toList), website := none,
           phone_number := some ("P0".toList), email := none,
           latitude := none, longitude := none },
         { name := some ("B0".toList), address := some ("A0".toList), website := none,
           phone_number := some ("P0".toList), email := none,
           latitude := none, longitude := none }], 0) := by
  exact ⟨rfl, rfl⟩

/-- C3 (amended): for every listing whose processing does not raise before
the record object is created, exactly one fresh `BusinessRecord` — the
listing's own, possibly partially filled, record — is appended, in listing
order, and processing moves on to the next listing. -/
theorem C3_per_listing_append (env : ScrapeEnv) (ls : List Nat)
    (h : ∀ l ∈ ls, env.detail l ≠ DetailOutcome.raiseBeforeRecord) :
    ∃ lk, processListings env ls none =
      (Except.ok (ls.map fun l => (freshRecordOf env l).getD default), lk) := by
  suffices hgen : ∀ (ls' : List Nat) (prev : Option BusinessData),
      (∀ l ∈ ls', env.detail l ≠ DetailOutcome.raiseBeforeRecord) →
      ∃ lk, processListings env ls' prev =
        (Except.ok (ls'.map fun l => (freshRecordOf env l).getD default), lk) by
    exact hgen ls none h
  intro ls'
  induction ls' with
  | nil => exact fun _ _ => ⟨0, rfl⟩
  | cons l ls' ih =>
    intro prev h'
    obtain ⟨b, lk1, hpl, hfresh⟩ := processListing_of_not_raiseBefore env prev l
      (h' l (List.mem_cons_self l ls'))
    obtain ⟨lk2, hrec⟩ := ih (some b) fun l' hl' => h' l' (List.mem_cons_of_mem _ hl')
    refine ⟨lk1 + lk2, ?_⟩
    rw [processListings, hpl]
    simp only [hrec, List.map_cons, hfresh, Option.getD_some]

/-- Witness environment for the amended C3: listing 0 raises mid-fields
leaving a partial record, listing 1 completes. -/
def envC3w : ScrapeEnv :=
  { web := { nav := fun _ => NavResult.ok none, searchNav := fun _ => NavResult.ok none },
    setupOk := true,
    rendered := [0, 1],
    detail := fun l =>
      if l = 0 then DetailOutcome.raiseDuringFields
        { name := some ("N0".toList), address := none, website := none,
          phone_number := none, email := none, latitude := none, longitude := none }
      else DetailOutcome.fields
        { name := some ("N1".toList), address := some ("A1".toList), website := none,
          phone_number := some ("P1".toList), email := none,
          latitude := none, longitude := none },
    ipifyNav := fun _ => true }

theorem C3_per_listing_append_witness :
    ∃ lk, processListings envC3w [0, 1] none =
      (Except.ok ([0, 1].map fun l => (freshRecordOf envC3w l).getD default), lk) :=
  C3_per_listing_append envC3w [0, 1] (by decide)

/-! ### Claim C4 -/

/-- C4: a collection handed to the output sink contains at most `total`
records, and every record in it originates from one of the listing items
rendered (and truncated to `total` by `[:total]`) during the query's
pagination. -/
theorem C4_collection_invariant (env : ScrapeEnv) (proxy ua : Str) (total : Nat)
    (col : List BusinessData)
    (hsaved : (scrape_google_maps env proxy ua total).saved = some col) :
    col.length ≤ total ∧
      ∀ r ∈ col, ∃ l ∈ env.rendered.take total, freshRecordOf env l = some r := by
  rw [scrape_google_maps] at hsaved
  cases hv : validateScrapeInputs proxy ua with
  | error e => rw [hv] at hsaved; exact absurd hsaved (by simp)
  | ok u =>
    rw [hv] at hsaved
    cases hs : env.setupOk with
    | false => rw [hs] at hsaved; exact absurd hsaved (by simp)
    | true =>
      rw [hs] at hsaved
      simp only [if_true] at hsaved
      rcases hpl : processListings env (env.rendered.take total) none with ⟨r0, lk⟩
      rw [hpl] at hsaved
      cases r0 with
      | error u2 => exact absurd hsaved (by simp)
      | ok col' =>
        simp only [Option.some.injEq] at hsaved
        rw [← hsaved]
        constructor
        · rw [processListings_ok_length env (env.rendered.take total) none col' lk hpl]
          exact List.length_take_le total env.rendered
        · exact processListings_origin env (env.rendered.take total)
            (env.rendered.take total) none col' lk hpl (fun l hl => hl)
            (fun b hb => absurd hb (by simp))

/-- Witness environment for C4: three listings rendered, target count 2,
each listing yielding a complete record without a website. -/
def envC4 : ScrapeEnv :=
  { web := { nav := fun _ => NavResult.ok none, searchNav := fun _ => NavResult.ok none },
    setupOk := true,
    rendered := [0, 1, 2],
    detail := fun _ => DetailOutcome.fields
      { name := some ("N".toList), address := some ("A".toList), website := none,
        phone_number := some ("P".toList), email := none,
        latitude := none, longitude := none },
    ipifyNav := fun _ => true }

/-- The record each listing of `envC4` produces. -/
def recC4 : BusinessData :=
  { name := some ("N".toList), address := some ("A".toList), website := none,
    phone_number := some ("P".toList), email := none,
    latitude := none, longitude := none }

theorem C4_collection_invariant_witness :
    ([recC4, recC4] : List BusinessData).length ≤ 2
    ∧ ∀ r ∈ [recC4, recC4], ∃ l ∈ envC4.rendered.take 2,
        freshRecordOf envC4 l = some r :=
  C4_collection_invariant envC4 ("http://pr.ox".toList) ("Mozilla".toList) 2
    [recC4, recC4] (by decide)

/-! ### Claim C6 (corrected) -/

/-- Environment refuting C6 as stated: the single listing has a valid
website whose home page navigation raises inside
`search_email_on_website`; the raise skips `local_context.close()`
(escrape.py 363 is inside the `try`, not in a `finally`), so the
per-listing site-identity context and its page (2 handles) stay open when
control returns to the per-listing boundary. -/
def envC6 : ScrapeEnv :=
  { web := { nav := fun u => if u = "https://a.bc".toList then NavResult.err
               else NavResult.ok none,
             searchNav := fun _ => NavResult.ok none },
    setupOk := true,
    rendered := [0],
    detail := fun _ => DetailOutcome.fields
      { name := some ("B".toList), address := none, website := some ("a.bc".toList),
        phone_number := none, email := none, latitude := none, longitude := none },
    ipifyNav := fun _ => true }

/-- C6 counterexample: processing the single listing of `envC6` leaks 2
handles (the per-listing `local_context` and its `local_page`) past the
listing scope — they are only closed by `local_browser.close()` at
teardown — refuting "every browser page or context opened for a sub-task is
closed by the same scope that opened it before control returns upward, on
every outcome including exceptions". -/
theorem C6_counterexample :
    processListings envC6 [0] none =
      (Except.ok
        [{ name := some ("B".toList), address := none,
           website := some ("https://a.bc".toList), phone_number := none,
           email := none, latitude := none, longitude := none }], 2)
    ∧ (2 : Nat) ≠ 0 :=
  ⟨by decide, by decide⟩

/-- C6 (amended): the engine closes every page it opens (the search page on
all outcomes including a propagated exception, and the ephemeral
search-fallback page) before returning; both browser sessions are closed on
every outcome of `scrape_google_maps`; and a run in which no listing's
email-discovery step raises leaks no handle.  (The per-listing site-identity
context, however, is closed only when discovery completes without raising —
see `C6_counterexample`.) -/
theorem C6_scoped_close (w : World) (url : Str) :
    ((search_email_on_website w url).pagesOpened =
      (search_email_on_website w url).pagesClosed)
    ∧ (∀ env proxy ua total, (scrape_google_maps env proxy ua total).browsersLaunched =
        (scrape_google_maps env proxy ua total).browsersClosed)
    ∧ (∀ env ls prev col lk, processListings env ls prev = (Except.ok col, lk) →
        (∀ l ∈ ls, ∀ b, env.detail l = DetailOutcome.fields b →
          (listingFieldsStep env l b).2 = 0) →
        lk = 0) := by
  refine ⟨?_, ?_, ?_⟩
  · rw [search_email_on_website]
    cases w.nav url with
    | err => rfl
    | ok o =>
      cases o with
      | some e => rfl
      | none =>
        rcases sweepPaths w url commonContactPaths with ⟨r, vs⟩
        cases r with
        | some e => rfl
        | none => rfl
  · intro env proxy ua total
    rw [scrape_google_maps]
    cases validateScrapeInputs proxy ua with
    | error e => rfl
    | ok u =>
      cases hs : env.setupOk with
      | false => simp
      | true =>
        simp only [if_true]
        rcases processListings env (env.rendered.take total) none with ⟨r0, lk⟩
        cases r0 with
        | error u2 => rfl
        | ok col => rfl
  · intro env ls
    induction ls with
    | nil =>
      intro prev col lk h _
      simpa [processListings] using (congrArg Prod.snd h).symm
    | cons l ls ih =>
      intro prev col lk h hnl
      rw [processListings] at h
      split at h
      · exact absurd (congrArg Prod.fst h) (by simp)
      · rename_i b leak heq
        split at h
        · exact absurd (congrArg Prod.fst h) (by simp)
        · rename_i hcolrec col' lk2 heq2
          have hleak : leak = 0 := by
            cases hd : env.detail l with
            | raiseBeforeRecord =>
              simp only [processListing, hd] at heq
              cases prev with
              | none => exact absurd heq (by simp)
              | some b' =>
                simp only [Except.ok.injEq, Prod.mk.injEq] at heq
                exact heq.2.symm
            | raiseDuringFields part =>
              simp only [processListing, hd] at heq
              simp only [Except.ok.injEq, Prod.mk.injEq] at heq
              exact heq.2.symm
            | fields b2 =>
              simp only [processListing, hd] at heq
              have hz := hnl l (List.mem_cons_self l ls) b2 hd
              have h2 : (listingFieldsStep env l b2).2 = leak :=
                congrArg Prod.snd (Except.ok.inj heq)
              rw [← h2]
              exact hz
          have hlk2 : lk2 = 0 := ih (some b) col' lk2 heq2
            (fun l' hl' => hnl l' (List.mem_cons_of_mem _ hl'))
          have : leak + lk2 = lk := by simpa using congrArg Prod.snd h
          omega

/-- Record of the single listing of the C6 witness environment. -/
def recC6w : BusinessData :=
  { name := some ("B".toList), address := none, website := some ("ok.bc".toList),
    phone_number := none, email := none, latitude := none, longitude := none }

/-- Witness environment for the amended C6: one listing with a valid
website whose discovery completes (home page yields an email), so nothing
leaks. -/
def envC6w : ScrapeEnv :=
  { web := { nav := fun u => if u = "https://ok.bc".toList
               then NavResult.ok (some ("m@ok.bc".toList)) else NavResult.ok none,
             searchNav := fun _ => NavResult.ok none },
    setupOk := true,
    rendered := [0],
    detail := fun _ => DetailOutcome.fields recC6w,
    ipifyNav := fun _ => true }

/-- The record the C6 witness run appends. -/
def recC6wOut : BusinessData :=
  { name := some ("B".toList), address := none,
    website := some ("https://ok.bc".toList), phone_number := none,
    email := some ("m@ok.bc".toList), latitude := none, longitude := none }

theorem C6_scoped_close_witness :
    ((search_email_on_website envC6w.web ("https://ok.bc".toList)).pagesOpened =
      (search_email_on_website envC6w.web ("https://ok.bc".toList)).pagesClosed)
    ∧ (scrape_google_maps envC6w ("http://pr.ox".toList) ("Mozilla".toList) 1).browsersLaunched =
        (scrape_google_maps envC6w ("http://pr.ox".toList) ("Mozilla".toList) 1).browsersClosed
    ∧ (0 : Nat) = 0 := by
  refine ⟨(C6_scoped_close envC6w.web ("https://ok.bc".toList)).1, ?_, ?_⟩
  · exact (C6_scoped_close envC6w.web ("https://ok.bc".toList)).2.1 envC6w
      ("http://pr.ox".toList) ("Mozilla".toList) 1
  · exact (C6_scoped_close envC6w.web ("https://ok.bc".toList)).2.2 envC6w [0] none
      [recC6wOut] 0 (by decide)
      (by
        intro l hl b hb
        have hl0 : l = 0 := by simpa using hl
        subst hl0
        have hb' : DetailOutcome.fields recC6w = DetailOutcome.fields b := hb
        have hinj : recC6w = b := DetailOutcome.fields.inj hb'
        rw [← hinj]
        decide)

/-! ### Claim C9 -/

/-- `http://` and `https://` are incomparable: no string starts with both. -/
theorem http_https_disjoint (s : Str) :
    ¬("http://".toList <+: s ∧ "https://".toList <+: s) := by
  rintro ⟨h1, h2⟩
  rcases List.prefix_or_prefix_of_prefix h1 h2 with h | h
  · have := List.isPrefixOf_iff_prefix.2 h
    revert this
    decide
  · have := List.isPrefixOf_iff_prefix.2 h
    revert this
    decide

/-- C9: the orchestrator validates before launching: it accepts exactly the
proxy strings beginning with `http://` together with a non-empty user
agent; every `https://`-prefixed proxy is rejected; and on rejection it
raises a descriptive error with no browser launched. -/
theorem C9_input_validation (env : ScrapeEnv) (proxy ua : Str) (total : Nat) :
    (validateScrapeInputs proxy ua = Except.ok () ↔
      ("http://".toList <+: proxy ∧ ua ≠ []))
    ∧ (∀ s, validateScrapeInputs ("https://".toList ++ s) ua ≠ Except.ok ())
    ∧ (validateScrapeInputs proxy ua ≠ Except.ok () →
        ∃ msg, scrape_google_maps env proxy ua total =
          { outcome := Except.error msg, saved := none, browsersLaunched := 0,
            browsersClosed := 0, leakedHandles := 0 }) := by
  refine ⟨⟨?_, ?_⟩, ?_, ?_⟩
  · intro hok
    rw [validateScrapeInputs] at hok
    split at hok
    · exact absurd hok (by simp)
    · split at hok
      · exact absurd hok (by simp)
      · rename_i hcond hua
        have hx : "http://".toList <+: proxy ∧ ¬ "https://".toList <+: proxy := by
          simpa using hcond
        refine ⟨hx.1, ?_⟩
        intro hnil
        rw [hnil] at hua
        exact hua rfl
  · rintro ⟨hp, hu⟩
    have hp' : "http://".toList.isPrefixOf proxy = true := List.isPrefixOf_iff_prefix.2 hp
    have hps : "https://".toList.isPrefixOf proxy = false := by
      cases hq : "https://".toList.isPrefixOf proxy
      · rfl
      · exact absurd ⟨hp, List.isPrefixOf_iff_prefix.1 hq⟩ (http_https_disjoint proxy)
    have hue : ua.isEmpty = false := by
      cases ua with
      | nil => exact absurd rfl hu
      | cons c cs => rfl
    rw [validateScrapeInputs, hp', hps, hue]
    rfl
  · intro s
    have h1 : ("http://".toList.isPrefixOf ("https://".toList ++ s)) = false := rfl
    rw [validateScrapeInputs, h1]
    simp
  · intro hbad
    cases hv : validateScrapeInputs proxy ua with
    | error e => exact ⟨e, by rw [scrape_google_maps, hv]⟩
    | ok u => cases u; exact absurd hv hbad

/-- Environment for the C9 witness (its oracles are never consulted on the
rejected path). -/
def envC9 : ScrapeEnv :=
  { web := { nav := fun _ => NavResult.ok none, searchNav := fun _ => NavResult.ok none },
    setupOk := true,
    rendered := [],
    detail := fun _ => DetailOutcome.raiseBeforeRecord,
    ipifyNav := fun _ => true }

theorem C9_input_validation_witness :
    validateScrapeInputs ("http://pr.ox".toList) ("Mozilla".toList) = Except.ok ()
    ∧ validateScrapeInputs ("https://".toList ++ "pr.ox".toList) ("Mozilla".toList) ≠
        Except.ok ()
    ∧ ∃ msg, scrape_google_maps envC9 ("ftp://x.yz".toList) ("Mozilla".toList) 5 =
        { outcome := Except.error msg, saved := none, browsersLaunched := 0,
          browsersClosed := 0, leakedHandles := 0 } := by
  refine ⟨?_, ?_, ?_⟩
  · exact (C9_input_validation envC9 ("http://pr.ox".toList) ("Mozilla".toList) 5).1.2
      ⟨List.isPrefixOf_iff_prefix.1 (by decide), by decide⟩
  · exact (C9_input_validation envC9 ("http://pr.ox".toList) ("Mozilla".toList) 5).2.1
      ("pr.ox".toList)
  · exact (C9_input_validation envC9 ("ftp://x.yz".toList) ("Mozilla".toList) 5).2.2
      (by decide)

/-! ### Claim C8 (corrected) -/

/-- A list whose `head?` is `some a` is `a` consed onto its tail. -/
theorem eq_cons_of_headEq {α} : ∀ {l : List α} {a : α}, l.head? = some a → l = a :: l.tail
  | [], _, h => nomatch h
  | b :: _, a, h => by
    rw [List.head?_cons, Option.some.injEq] at h
    rw [h]
    exact rfl

/-- C8 counterexample: the claim's iff fails in both directions.  The regex
has no end anchor, so `"example.com junk"` validates although the string is
not of the shape `[optional scheme][optional www.]host.tld`; and the regex
recognizes `www.` only inside the alternatives `http://www.`/`https://www.`,
so `"www.a-b.cd"` — which is of the spec's shape (`www.` + host `a-b` +
TLD `cd`) — does not validate. -/
theorem C8_counterexample :
    is_valid_url ("example.com junk".toList) = true
    ∧ matchesSpecShape ("example.com junk".toList) = false
    ∧ is_valid_url ("www.a-b.cd".toList) = false
    ∧ matchesSpecShape ("www.a-b.cd".toList) = true := by
  refine ⟨by decide, by decide, by decide, by decide⟩

/-- C8 (amended): URL validation is anchored at the start of the string
only and couples `www.` with an explicit scheme: it returns true iff the
string *begins with* optional scheme (`http://`, `https://`, each also with
`www.` attached), then a non-empty run of `[a-zA-Z0-9-]`, a dot, and at
least two ASCII letters — trailing characters are unconstrained.  The
claim's concrete examples all hold: false for `"N/A"`, `""`,
`"not a url"`; true for `"example.com"`, `"http://example.com"`,
`"https://www.example.co.uk"`. -/
theorem C8_url_validation (s : Str) :
    (is_valid_url s = true ↔ urlShapeAtStart s)
    ∧ is_valid_url ("N/A".toList) = false
    ∧ is_valid_url [] = false
    ∧ is_valid_url ("not a url".toList) = false
    ∧ is_valid_url ("example.com".toList) = true
    ∧ is_valid_url ("http://example.com".toList) = true
    ∧ is_valid_url ("https://www.example.co.uk".toList) = true := by
  refine ⟨⟨?_, ?_⟩, by decide, by decide, by decide, by decide, by decide, by decide⟩
  · intro h
    rw [is_valid_url, List.any_eq_true] at h
    obtain ⟨pre, hmem, hb⟩ := h
    rw [Bool.and_eq_true] at hb
    obtain ⟨t, ht⟩ := List.isPrefixOf_iff_prefix.1 hb.1
    have hdrop : s.drop pre.length = t := by rw [← ht, List.drop_left]
    have hc := hb.2
    rw [hdrop, hostTldCheck, Bool.and_eq_true, Bool.and_eq_true] at hc
    obtain ⟨⟨h1, h2⟩, h3⟩ := hc
    have h2' : (t.dropWhile hostChar).head? = some '.' := by simpa using h2
    have h3' : 2 ≤ ((t.dropWhile hostChar).tail.takeWhile Char.isAlpha).length := by
      simpa using h3
    have h1' : t.takeWhile hostChar ≠ [] := by
      intro hnil
      rw [hnil] at h1
      exact absurd h1 (by decide)
    have hcons : t.dropWhile hostChar = '.' :: (t.dropWhile hostChar).tail :=
      eq_cons_of_headEq h2'
    have hsplit : t = t.takeWhile hostChar ++ '.' :: (t.dropWhile hostChar).tail := by
      have hx := (List.takeWhile_append_dropWhile hostChar t).symm
      rw [hcons] at hx
      exact hx
    have hr2split : (t.dropWhile hostChar).tail =
        ((t.dropWhile hostChar).tail.takeWhile Char.isAlpha) ++
          ((t.dropWhile hostChar).tail.dropWhile Char.isAlpha) :=
      (List.takeWhile_append_dropWhile _ _).symm
    refine ⟨pre, t.takeWhile hostChar,
      (t.dropWhile hostChar).tail.takeWhile Char.isAlpha,
      (t.dropWhile hostChar).tail.dropWhile Char.isAlpha, ?_, ?_, h1', ?_, h3', ?_⟩
    · rcases List.mem_append.1 hmem with hm | hm
      · exact Or.inl hm
      · right; simpa using hm
    · rw [← ht, List.append_assoc, ← hr2split, ← hsplit]
    · exact fun c hc => List.mem_takeWhile_imp hc
    · exact fun c hc => List.mem_takeWhile_imp hc
  · rintro ⟨sch, host, tld, rest, hmem, rfl, hhost, hhostchar, htld, htldchar⟩
    rw [is_valid_url, List.any_eq_true]
    refine ⟨sch, ?_, ?_⟩
    · rcases hmem with hm | hm
      · exact List.mem_append_left _ hm
      · rw [hm]; exact List.mem_append_right _ (by simp)
    · rw [Bool.and_eq_true]
      constructor
      · exact List.isPrefixOf_iff_prefix.2
          ⟨host ++ '.' :: (tld ++ rest), (List.append_assoc sch host _).symm⟩
      · rw [List.append_assoc, List.drop_left, hostTldCheck,
          takeWhile_middle hostChar host '.' (tld ++ rest) hhostchar (by decide),
          dropWhile_middle hostChar host '.' (tld ++ rest) hhostchar (by decide)]
        rw [Bool.and_eq_true, Bool.and_eq_true]
        refine ⟨⟨?_, ?_⟩, ?_⟩
        · cases host with
          | nil => exact absurd rfl hhost
          | cons c cs => rfl
        · rfl
        · rw [List.tail_cons, decide_eq_true_eq,
            takeWhile_append_all Char.isAlpha tld rest htldchar, List.length_append]
          omega

/-! ### Claim C7 -/

/-- When `/@` does not occur, `split('/@')` returns the whole string as its
only field. -/
theorem afterLastSlashAt_none : ∀ (l : Str), hasSlashAt l = false →
    afterLastSlashAt l = none
  | [], _ => rfl
  | [_], _ => rfl
  | a :: b :: rest, h => by
    rw [hasSlashAt, Bool.or_eq_false_iff] at h
    have ih := afterLastSlashAt_none (b :: rest) h.2
    simp only [afterLastSlashAt, ih]
    simp [h.1]

/-- When the suffix `b` after an occurrence of `/@` contains no further
occurrence, `split('/@')[-1]` is exactly `b`. -/
theorem afterLastSlashAt_append : ∀ (a b : Str), hasSlashAt b = false →
    afterLastSlashAt (a ++ '/' :: '@' :: b) = some b
  | [], b, hb => by
    have hb' : hasSlashAt ('@' :: b) = false := by
      cases b with
      | nil => rfl
      | cons c cs =>
        rw [hasSlashAt, Bool.or_eq_false_iff]
        exact ⟨by simp, hb⟩
    have ih := afterLastSlashAt_none ('@' :: b) hb'
    have hun : afterLastSlashAt ([] ++ '/' :: '@' :: b) =
        match afterLastSlashAt ('@' :: b) with
        | some s => some s
        | none => if ('/' : Char) = '/' && ('@' : Char) = '@' then some b else none := rfl
    rw [hun, ih]
    simp
  | x :: a, b, hb => by
    have ih := afterLastSlashAt_append a b hb
    cases a with
    | nil =>
      simp only [List.nil_append] at ih
      have hun : afterLastSlashAt ((x :: []) ++ '/' :: '@' :: b) =
          match afterLastSlashAt ('/' :: '@' :: b) with
          | some s => some s
          | none => if x = '/' && ('/' : Char) = '@' then some ('@' :: b) else none := rfl
      rw [hun, ih]
    | cons y a' =>
      simp only [List.cons_append] at ih
      have hun : afterLastSlashAt ((x :: y :: a') ++ '/' :: '@' :: b) =
          match afterLastSlashAt (y :: (a' ++ '/' :: '@' :: b)) with
          | some s => some s
          | none => if x = '/' && y = '@' then some (a' ++ '/' :: '@' :: b) else none := rfl
      rw [hun, ih]

/-- C7: coordinate extraction.  (1) For every URL containing a (last)
`/@lat,lon,...` segment — `lat` the comma- and slash-free text directly
after `/@`, `lon` the text up to the next comma, slash or the end — with
`lat` and `lon` parsed by `float` to `la` and `lo`, extraction returns
exactly `(la, lo)`.  (2) For every scheme-prefixed URL with no `/@`
segment, extraction fails deterministically (raises, modelled as `none`):
the text before the first slash is `http:`/`https:`, which contains no
comma, so `split(',')[1]` raises `IndexError`. -/
theorem C7_coordinate_extraction :
    (∀ (pre latS lonS rest : Str) (la lo : DecNum),
      hasSlashAt (latS ++ ',' :: (lonS ++ rest)) = false →
      (∀ c ∈ latS, c ≠ ',') → (∀ c ∈ latS, c ≠ '/') →
      (∀ c ∈ lonS, c ≠ ',') → (∀ c ∈ lonS, c ≠ '/') →
      (rest = [] ∨ (∃ r2, rest = ',' :: r2) ∨ (∃ r2, rest = '/' :: r2)) →
      pyFloat latS = some la → pyFloat lonS = some lo →
      extract_coordinates_from_url
        (pre ++ '/' :: '@' :: (latS ++ ',' :: (lonS ++ rest))) = some (la, lo))
    ∧ (∀ url : Str, ("http://".toList <+: url ∨ "https://".toList <+: url) →
        hasSlashAt url = false → extract_coordinates_from_url url = none) := by
  constructor
  · intro pre latS lonS rest la lo hseg hlatc hlats hlonc hlons hrest hla hlo
    have hafter : afterLastSlashAt (pre ++ '/' :: '@' :: (latS ++ ',' :: (lonS ++ rest)))
        = some (latS ++ ',' :: (lonS ++ rest)) :=
      afterLastSlashAt_append pre (latS ++ ',' :: (lonS ++ rest)) hseg
    rw [extract_coordinates_from_url, hafter, Option.getD_some]
    have hlatP : ∀ c ∈ latS, (fun c => !(c = '/' : Bool)) c = true := by
      intro c hc; simpa using hlats c hc
    have hlonP : ∀ c ∈ lonS, (fun c => !(c = '/' : Bool)) c = true := by
      intro c hc; simpa using hlons c hc
    have hlatQ : ∀ c ∈ latS, (fun c => !(c = ',' : Bool)) c = true := by
      intro c hc; simpa using hlatc c hc
    have hlonQ : ∀ c ∈ lonS, (fun c => !(c = ',' : Bool)) c = true := by
      intro c hc; simpa using hlonc c hc
    have hcoords : ∃ tail2,
        (latS ++ ',' :: (lonS ++ rest)).takeWhile (fun c => !(c = '/')) =
          latS ++ ',' :: (lonS ++ tail2) ∧ (tail2 = [] ∨ ∃ z, tail2 = ',' :: z) := by
      rcases hrest with hr | ⟨r2, hr⟩ | ⟨r2, hr⟩
      · subst hr
        refine ⟨[], ?_, Or.inl rfl⟩
        rw [takeWhile_append_all _ latS _ hlatP, List.takeWhile_cons, if_pos (by decide)]
        rw [List.append_nil, takeWhile_all _ lonS hlonP]
      · subst hr
        refine ⟨',' :: r2.takeWhile (fun c => !(c = '/')), ?_, Or.inr ⟨_, rfl⟩⟩
        rw [takeWhile_append_all _ latS _ hlatP, List.takeWhile_cons, if_pos (by decide)]
        rw [takeWhile_append_all _ lonS _ hlonP, List.takeWhile_cons, if_pos (by decide)]
      · subst hr
        refine ⟨[], ?_, Or.inl rfl⟩
        rw [takeWhile_append_all _ latS _ hlatP, List.takeWhile_cons, if_pos (by decide)]
        rw [List.append_nil, takeWhile_middle _ lonS '/' r2 hlonP (by decide)]
    obtain ⟨tail2, hco, htail2⟩ := hcoords
    simp only [coordPairOf]
    rw [hco]
    rw [dropWhile_middle _ latS ',' (lonS ++ tail2) hlatQ (by decide)]
    rw [takeWhile_middle _ latS ',' (lonS ++ tail2) hlatQ (by decide)]
    simp only [List.isEmpty_cons, List.tail_cons, Bool.false_eq_true, if_false]
    have hf1 : (lonS ++ tail2).takeWhile (fun c => !(c = ',')) = lonS := by
      rcases htail2 with h2 | ⟨z, h2⟩
      · subst h2; rw [List.append_nil, takeWhile_all _ lonS hlonQ]
      · subst h2; rw [takeWhile_middle _ lonS ',' z hlonQ (by decide)]
    rw [hf1, hla, hlo]
  · intro url hpre hno
    have hafter : afterLastSlashAt url = none := afterLastSlashAt_none url hno
    rw [extract_coordinates_from_url, hafter]
    rcases hpre with ⟨t, ht⟩ | ⟨t, ht⟩
    · have hsh : url = (['h', 't', 't', 'p', ':'] : Str) ++ '/' :: ('/' :: t) := by
        rw [← ht]; rfl
      rw [Option.getD_none, hsh]
      simp only [coordPairOf]
      rw [takeWhile_middle _ ['h', 't', 't', 'p', ':'] '/' ('/' :: t) (by decide) (by decide)]
      decide
    · have hsh : url = (['h', 't', 't', 'p', 's', ':'] : Str) ++ '/' :: ('/' :: t) := by
        rw [← ht]; rfl
      rw [Option.getD_none, hsh]
      simp only [coordPairOf]
      rw [takeWhile_middle _ ['h', 't', 't', 'p', 's', ':'] '/' ('/' :: t) (by decide) (by decide)]
      decide

theorem C7_coordinate_extraction_witness :
    extract_coordinates_from_url
      ("https://www.google.com/maps/place/X".toList ++ '/' :: '@' ::
        ("-37.81".toList ++ ',' :: ("144.96".toList ++ ",17z/data".toList)))
      = some (⟨-3781, -2⟩, ⟨14496, -2⟩)
    ∧ extract_coordinates_from_url ("http://example.com/maps".toList) = none := by
  constructor
  · exact C7_coordinate_extraction.1 ("https://www.google.com/maps/place/X".toList)
      ("-37.81".toList) ("144.96".toList) (",17z/data".toList) ⟨-3781, -2⟩ ⟨14496, -2⟩
      (by decide) (by decide) (by decide) (by decide) (by decide)
      (Or.inr (Or.inl ⟨"17z/data".toList, by decide⟩)) (by decide) (by decide)
  · exact C7_coordinate_extraction.2 ("http://example.com/maps".toList)
      (Or.inl (List.isPrefixOf_iff_prefix.1 (by decide))) (by decide)

end EScrape
